import Mathlib

/-!
# StockQuest — verification of the quote-normalizer and team-builder/ledger contract

Shallow embedding of the normalization, team-selection and portfolio-submission
logic of the StockQuest frontend (`app.js`, `stockquest.js`, `firestore.js`).

JavaScript numbers are modelled as rationals (`ℚ`); `NaN` is modelled explicitly
(`JNum := Option ℚ`, with `none` for `NaN`), since the numeric resolvers can
produce `NaN` on their object branch. Dynamic JS values that flow through the
normalizer are modelled by `JVal`. `parseFloat` is modelled on strings faithfully
for sign / digits / fraction / exponent prefixes (the `Infinity` literal, never
produced by the market-data payloads at issue, is not modelled).
-/

/-- A dynamic JavaScript value as seen by the quote normalizer: `undefined`,
`NaN`, a (finite) number, a string, or an object modelled as an association
list of own properties. -/
inductive JVal where
  | undefined : JVal
  | nan : JVal
  | num : ℚ → JVal
  | str : String → JVal
  | obj : List (String × JVal) → JVal

/-- A JS numeric result: `none` models `NaN`, `some q` a finite number. -/
abbrev JNum := Option ℚ

/-- JS truthiness: `undefined`, `NaN`, `0` and `""` are falsy; objects are
always truthy. -/
def jsTruthy : JVal → Bool
  | .undefined => false
  | .nan => false
  | .num q => decide (q ≠ 0)
  | .str s => decide (s ≠ "")
  | .obj _ => true

/-- Property read `o.k`: first matching own property, `undefined` otherwise
(and `undefined` on primitives, which carry none of the properties probed by
the normalizer). -/
def getField (fields : List (String × JVal)) (k : String) : JVal :=
  match fields.find? (fun p => p.1 == k) with
  | some p => p.2
  | none => .undefined

/-- JS `a || b`: the left operand if truthy, otherwise the right. -/
def jsOr (a b : JVal) : JVal := if jsTruthy a then a else b

/-- The own properties of a value (`[]` for primitives). -/
def jfields : JVal → List (String × JVal)
  | .obj f => f
  | _ => []

/-- Characters matched by `\s` in a JS regex (ASCII whitespace and NBSP). -/
def isJsSpace (c : Char) : Bool :=
  c = ' ' || c = '\t' || c = '\n' || c = '\r' ||
  c.toNat = 11 || c.toNat = 12 || c.toNat = 160

/-- Numeric value of a digit run, most significant first. -/
def digitsToNat (ds : List Char) : Nat :=
  ds.foldl (fun n c => 10 * n + (c.toNat - 48)) 0

/-- The syntactic decomposition performed by JS `parseFloat`: sign, integer
digits, fraction digits (with their count) and an optional signed exponent. -/
structure FloatParts where
  neg : Bool
  intPart : Nat
  fracPart : Nat
  fracLen : Nat
  expNeg : Bool
  expVal : Nat
deriving DecidableEq, Repr

/-- The character-level phase of JS `parseFloat`: skip leading whitespace,
read an optional sign, decimal digits, an optional `.`-fraction and an
optional `e`/`E` exponent; trailing junk is ignored; `none` (`NaN`) when no
digit could be read. An exponent marker without digits contributes exponent 0,
as in JS (`parseFloat("1e") = 1`). -/
def splitFloat (l0 : List Char) : Option FloatParts :=
  let l1 := l0.dropWhile isJsSpace
  let sp : Bool × List Char :=
    match l1 with
    | '-' :: rest => (true, rest)
    | '+' :: rest => (false, rest)
    | _ => (false, l1)
  let ip := sp.2.takeWhile Char.isDigit
  let r1 := sp.2.dropWhile Char.isDigit
  let fp : List Char × List Char :=
    match r1 with
    | '.' :: rest => (rest.takeWhile Char.isDigit, rest.dropWhile Char.isDigit)
    | _ => ([], r1)
  if ip.isEmpty && fp.1.isEmpty then none
  else
    let ex : Bool × Nat :=
      match fp.2 with
      | e :: rest =>
        if e = 'e' ∨ e = 'E' then
          match rest with
          | '-' :: r => (true, digitsToNat (r.takeWhile Char.isDigit))
          | '+' :: r => (false, digitsToNat (r.takeWhile Char.isDigit))
          | r => (false, digitsToNat (r.takeWhile Char.isDigit))
        else (false, 0)
      | [] => (false, 0)
    some { neg := sp.1, intPart := digitsToNat ip, fracPart := digitsToNat fp.1,
           fracLen := fp.1.length, expNeg := ex.1, expVal := ex.2 }

/-- The numeric value of a `parseFloat` decomposition. -/
def ratOfParts (p : FloatParts) : ℚ :=
  let m : ℚ := (p.intPart : ℚ) + (p.fracPart : ℚ) / (10 : ℚ) ^ p.fracLen
  let v : ℚ := if p.expNeg then m / (10 : ℚ) ^ p.expVal else m * (10 : ℚ) ^ p.expVal
  if p.neg then -v else v

/-- JS `parseFloat` on a character sequence. -/
def parseFloatChars (l : List Char) : Option ℚ := (splitFloat l).map ratOfParts

/-- `parseFloat` applied to an arbitrary value, via JS string coercion:
numbers round-trip, `NaN`/`undefined`/objects stringify to text with no
leading numeric prefix and hence parse to `NaN`. -/
def jsParseFloat : JVal → JNum
  | .str s => parseFloatChars s.toList
  | .num q => some q
  | .nan => none
  | .undefined => none
  | .obj _ => none

/-- JS `x || 0` on a numeric result: `NaN` (and `0` itself) becomes `0`. -/
def orZero (n : JNum) : JNum := some (n.getD 0)

/-- The strip pass of `parseNum` in `utils.parseStock` (app.js):
`String(val).replace(/[₹,%+\s,]/g, '')`. -/
def stripApp (l : List Char) : List Char :=
  l.filter (fun c => !(c = '₹' || c = ',' || c = '%' || c = '+' || isJsSpace c))

/-- The strip pass of `parseNum` in `showStockDetail` (app.js):
`String(val).replace(/[₹,%+\s,Cr]/gi, '')` — note that the case-insensitive
character class removes every `C`, `c`, `R` and `r` individually. -/
def stripDetail (l : List Char) : List Char :=
  l.filter (fun c => !(c = '₹' || c = ',' || c = '%' || c = '+' || isJsSpace c ||
                       c = 'C' || c = 'c' || c = 'R' || c = 'r'))

/-- JS `String.prototype.trim` (whitespace at both ends). -/
def trimJs (l : List Char) : List Char :=
  ((l.dropWhile isJsSpace).reverse.dropWhile isJsSpace).reverse

/-- Lower-case a character sequence (JS `toLowerCase`, ASCII range). -/
def lowerList (l : List Char) : List Char := l.map Char.toLower

/-- JS `String.prototype.includes` on character sequences. -/
def containsSub (pat : List Char) : List Char → Bool
  | [] => pat.isEmpty
  | c :: rest => pat.isPrefixOf (c :: rest) || containsSub pat rest

/-- JS `str.replace(/pat/i, '')` for a lower-case literal pattern: drop the
first case-insensitive occurrence. -/
def removeFirstCI (pat : List Char) : List Char → List Char
  | [] => []
  | c :: rest =>
    if pat.isPrefixOf (lowerList (c :: rest)) then (c :: rest).drop pat.length
    else c :: removeFirstCI pat rest

/-- `parseNum` of `utils.parseStock` (app.js, lines 110–115): falsy input is 0;
numbers pass through; objects try `value`/`price`/`ltp`; strings are stripped of
currency decoration and parsed, with `NaN` collapsed to 0 by `|| 0`. -/
def parseNumApp (v : JVal) : JNum :=
  if jsTruthy v = false then some 0
  else match v with
  | .num q => some q
  | .obj f =>
      jsParseFloat (jsOr (getField f "value") (jsOr (getField f "price")
        (jsOr (getField f "ltp") (.num 0))))
  | .str s => orZero (parseFloatChars (stripApp s.toList))
  | .nan => some 0
  | .undefined => some 0

/-- The string branch of `parseNum` in `showStockDetail` (app.js, lines
645–659): strip `/[₹,%+\s,Cr]/gi`, trim, then test for a `cr` / `l` magnitude
suffix (×10,000,000 / ×100,000) before parsing. The strip pass has already
removed every `C`/`c`/`R`/`r`, so the `cr` branch can never fire. -/
def parseNumDetailStr (l : List Char) : JNum :=
  let str := trimJs (stripDetail l)
  if containsSub ['c', 'r'] (lowerList str) then
    (parseFloatChars (removeFirstCI ['c', 'r'] str)).map (· * 10000000)
  else if containsSub ['l'] (lowerList str) then
    (parseFloatChars (removeFirstCI ['l'] str)).map (· * 100000)
  else orZero (parseFloatChars str)

/-- `parseNum` of `showStockDetail` (app.js): falsy input is 0; numbers pass
through; objects try `value`/`raw`/`amount`/`price`/`ltp`; strings go through
`parseNumDetailStr`. -/
def parseNumDetail (v : JVal) : JNum :=
  if jsTruthy v = false then some 0
  else match v with
  | .num q => some q
  | .obj f =>
      jsParseFloat (jsOr (getField f "value") (jsOr (getField f "raw")
        (jsOr (getField f "amount") (jsOr (getField f "price")
          (jsOr (getField f "ltp") (.num 0))))))
  | .str s => parseNumDetailStr s.toList
  | .nan => some 0
  | .undefined => some 0

/-- The canonical stock record produced by `utils.parseStock` (app.js, lines
117–132). `id` is `symbol + '_' + Date.now()`: the invocation timestamp is an
explicit argument of the embedding. Name and symbol keep their dynamic type
(the payload may supply non-string values for them). -/
structure Quote where
  id : String
  name : JVal
  symbol : JVal
  price : JNum
  change : JNum
  volume : JNum
  high : JNum
  low : JNum
  marketCap : JNum
  pe : JNum
  high52 : JNum
  low52 : JNum
  sector : JVal
  raw : JVal

/-- A `Quote` with the timestamp-bearing `id` field projected away. -/
structure QuoteCore where
  name : JVal
  symbol : JVal
  price : JNum
  change : JNum
  volume : JNum
  high : JNum
  low : JNum
  marketCap : JNum
  pe : JNum
  high52 : JNum
  low52 : JNum
  sector : JVal
  raw : JVal

/-- Forget the `id` field of a `Quote`. -/
def Quote.core (q : Quote) : QuoteCore :=
  ⟨q.name, q.symbol, q.price, q.change, q.volume, q.high, q.low, q.marketCap, q.pe,
   q.high52, q.low52, q.sector, q.raw⟩

/-- String content of a value where the source calls a string method on it
(`name.substring(0, 6)`): non-string values would raise a `TypeError` there,
which the total model maps to the empty string; every payload exercised below
resolves a string name. -/
def asStrJ : JVal → String
  | .str s => s
  | _ => ""

/-- Symbol derivation fallback of the normalizers:
`name.substring(0, 6).toUpperCase().replace(/\s/g, '')`. -/
def deriveSymbol (name : JVal) : String :=
  String.mk ((((asStrJ name).toList.take 6).map Char.toUpper).filter (fun c => !isJsSpace c))

/-- JS string coercion used when building `id` (`symbol + '_' + ...`). JS
number formatting is approximated (no theorem depends on a numeric symbol). -/
def jvalIdString : JVal → String
  | .str s => s
  | .num q => toString q
  | .nan => "NaN"
  | .undefined => "undefined"
  | .obj _ => "[object Object]"

/-- `utils.parseStock` (app.js): falsy raw input gives `null`; otherwise the
candidate-field chains resolve name, symbol and each numeric field through
`parseNum`, with `id = symbol + '_' + Date.now()` (`now` is the timestamp). -/
def parseStock (now : Nat) (v : JVal) : Option Quote :=
  if jsTruthy v = false then none
  else
    let f := jfields v
    let name := jsOr (getField f "company_name") (jsOr (getField f "companyName")
      (jsOr (getField f "name") (jsOr (getField f "longName") (jsOr (getField f "shortName")
      (jsOr (getField f "stock_name") (jsOr (getField f "scrip_name")
      (jsOr (getField f "symbol") (.str "Unknown"))))))))
    let symbol := jsOr (getField f "symbol") (jsOr (getField f "ticker")
      (jsOr (getField f "nseSymbol") (jsOr (getField f "bseSymbol")
      (jsOr (getField f "stock_id") (.str (deriveSymbol name))))))
    some
      { id := jvalIdString symbol ++ "_" ++ toString now
        name := name
        symbol := symbol
        price := parseNumApp (jsOr (getField f "currentPrice") (jsOr (getField f "current_price")
          (jsOr (getField f "price") (jsOr (getField f "ltp") (jsOr (getField f "lastPrice")
          (jsOr (getField f "close") (.num 0)))))))
        change := parseNumApp (jsOr (getField f "pChange") (jsOr (getField f "change_percent")
          (jsOr (getField f "changePercent") (jsOr (getField f "percent_change") (.num 0)))))
        volume := parseNumApp (jsOr (getField f "volume") (jsOr (getField f "tradedVolume")
          (jsOr (getField f "totalTradedVolume") (.num 0))))
        high := parseNumApp (jsOr (getField f "high") (jsOr (getField f "dayHigh") (.num 0)))
        low := parseNumApp (jsOr (getField f "low") (jsOr (getField f "dayLow") (.num 0)))
        marketCap := parseNumApp (jsOr (getField f "marketCap")
          (jsOr (getField f "market_cap") (.num 0)))
        pe := parseNumApp (jsOr (getField f "pe") (jsOr (getField f "peRatio") (.num 0)))
        high52 := parseNumApp (jsOr (getField f "high52") (jsOr (getField f "week52High")
          (jsOr (getField f "yearHigh") (.num 0))))
        low52 := parseNumApp (jsOr (getField f "low52") (jsOr (getField f "week52Low")
          (jsOr (getField f "yearLow") (.num 0))))
        sector := jsOr (getField f "sector") (jsOr (getField f "industry") (.str ""))
        raw := v }

/-- JS strict equality of a dynamic value against a string literal
(`s.name !== 'Unknown'` is the negation of this). -/
def jvalStrEq (v : JVal) (t : String) : Bool :=
  match v with
  | .str s => s == t
  | _ => false

/-- The list-view assembly of `loadStocks` (app.js, line 218):
`stocks.map(s => utils.parseStock(s)).filter(s => s && s.name !== 'Unknown')`. -/
def loadStocksApp (now : Nat) (data : List JVal) : List Quote :=
  ((data.map (parseStock now)).filterMap id).filter (fun q => !jvalStrEq q.name "Unknown")

/-- The stock record produced by `utils.extractStockData` (stockquest.js,
lines 118–161). Unlike `parseStock`, `volume`, `marketCap`, `pe`, `high52` and
`low52` are stored raw (un-parsed), and the name chain omits
`stock_name`/`scrip_name`. -/
structure QuoteQ where
  id : String
  name : JVal
  symbol : JVal
  price : JNum
  change : JNum
  changeAbs : JNum
  volume : JVal
  high : JNum
  low : JNum
  sector : JVal
  marketCap : JVal
  pe : JVal
  high52 : JVal
  low52 : JVal
  raw : JVal

/-- `utils.parsePrice` (stockquest.js): falsy input is 0; numbers pass
through; objects try `value`/`price`/`ltp`; strings are stripped of the rupee
sign, commas and whitespace and parsed, with `NaN` collapsed to 0. (In the
checked-in source the rupee sign in this regex appears as encoding-corrupted
bytes; it is modelled as the rupee sign.) -/
def parsePrice (v : JVal) : JNum :=
  if jsTruthy v = false then some 0
  else match v with
  | .num q => some q
  | .obj f =>
      jsParseFloat (jsOr (getField f "value") (jsOr (getField f "price")
        (jsOr (getField f "ltp") (.num 0))))
  | .str s =>
      orZero (parseFloatChars (s.toList.filter
        (fun c => !(c = '₹' || c = ',' || isJsSpace c))))
  | .nan => some 0
  | .undefined => some 0

/-- `utils.parseChange` (stockquest.js): like `parsePrice` but objects try
`value`/`percent`/`pChange` and strings are stripped of `%`, `+` and
whitespace. -/
def parseChange (v : JVal) : JNum :=
  if jsTruthy v = false then some 0
  else match v with
  | .num q => some q
  | .obj f =>
      jsParseFloat (jsOr (getField f "value") (jsOr (getField f "percent")
        (jsOr (getField f "pChange") (.num 0))))
  | .str s =>
      orZero (parseFloatChars (s.toList.filter
        (fun c => !(c = '%' || c = '+' || isJsSpace c))))
  | .nan => some 0
  | .undefined => some 0

/-- `utils.extractStockData` (stockquest.js). There is no falsy-input guard in
the source (a nullish element would fault); property reads on primitives give
`undefined`. -/
def extractStockData (now : Nat) (v : JVal) : QuoteQ :=
  let f := jfields v
  let name := jsOr (getField f "company_name") (jsOr (getField f "companyName")
    (jsOr (getField f "name") (jsOr (getField f "longName") (jsOr (getField f "shortName")
    (jsOr (getField f "symbol") (.str "Unknown"))))))
  let symbol := jsOr (getField f "symbol") (jsOr (getField f "ticker")
    (jsOr (getField f "nseSymbol") (jsOr (getField f "bseSymbol")
    (jsOr (getField f "stock_id") (.str (deriveSymbol name))))))
  { id := jvalIdString symbol ++ "_" ++ toString now
    name := name
    symbol := symbol
    price := parsePrice (jsOr (getField f "currentPrice") (jsOr (getField f "current_price")
      (jsOr (getField f "price") (jsOr (getField f "ltp") (jsOr (getField f "lastPrice")
      (jsOr (getField f "close") (jsOr (getField f "previousClose") (.num 0))))))))
    change := parseChange (jsOr (getField f "pChange") (jsOr (getField f "change_percent")
      (jsOr (getField f "changePercent") (jsOr (getField f "percent_change")
      (jsOr (getField f "change") (.num 0))))))
    changeAbs := parsePrice (jsOr (getField f "change") (jsOr (getField f "priceChange")
      (jsOr (getField f "dayChange") (.num 0))))
    volume := jsOr (getField f "volume") (jsOr (getField f "tradedVolume")
      (jsOr (getField f "totalTradedVolume") (jsOr (getField f "traded_volume") (.num 0))))
    high := parsePrice (jsOr (getField f "high") (jsOr (getField f "dayHigh")
      (jsOr (getField f "high52") (.num 0))))
    low := parsePrice (jsOr (getField f "low") (jsOr (getField f "dayLow")
      (jsOr (getField f "low52") (.num 0))))
    sector := jsOr (getField f "sector") (jsOr (getField f "industry")
      (jsOr (getField f "sector_name") (.str "")))
    marketCap := jsOr (getField f "marketCap") (jsOr (getField f "market_cap")
      (jsOr (getField f "mcap") (.num 0)))
    pe := jsOr (getField f "pe") (jsOr (getField f "peRatio")
      (jsOr (getField f "pe_ratio") (.num 0)))
    high52 := jsOr (getField f "high52") (jsOr (getField f "week52High")
      (jsOr (getField f "yearHigh") (.num 0)))
    low52 := jsOr (getField f "low52") (jsOr (getField f "week52Low")
      (jsOr (getField f "yearLow") (.num 0)))
    raw := v }

/-- The list-view assembly of `loadStocks` (stockquest.js, line 208):
`state.stocks = stocks.map(s => utils.extractStockData(s))` — no filter. -/
def loadStocksQuest (now : Nat) (data : List JVal) : List QuoteQ :=
  data.map (extractStockData now)

/-- A normalized stock as held in `state.stocks` / `state.selectedStocks`;
only the fields the team-builder and ledger read are carried. -/
structure Stk where
  symbol : String
  name : String
  price : ℚ
deriving DecidableEq, Repr

/-- A user-facing toast notification (`showToast(message, type)`). -/
inductive Toast where
  | success : String → Toast
  | error : String → Toast
  | info : String → Toast
deriving DecidableEq, Repr

/-- A stock line inside a persisted portfolio record
(`{symbol, name, price, quantity: 10}`). -/
structure PStock where
  symbol : String
  name : String
  price : ℚ
  quantity : ℚ
deriving DecidableEq, Repr

/-- A persisted portfolio record as written on submission. -/
structure Portfolio where
  id : String
  stocks : List PStock
  captain : Option String
  viceCaptain : Option String
  invested : ℚ
  createdAt : Nat
deriving DecidableEq, Repr

/-- The team-builder state: the loaded stock pool (`state.stocks`), the view
filter result (`state.filteredStocks`), the selection, role assignments,
virtual balance and the stored portfolio list. -/
structure TB where
  stocks : List Stk
  filtered : List Stk
  selected : List Stk
  captain : Option String
  viceCaptain : Option String
  balance : ℚ
  portfolios : List Portfolio
deriving DecidableEq, Repr

/-- `state.maxStocks`. -/
def maxStocks : Nat := 11

/-- `state.minStocks`. -/
def minStocks : Nat := 5

/-- The stock lookup of `addStock` (app.js):
`state.stocks.find(...) || state.filteredStocks.find(...)`. -/
def findStock (st : TB) (sym : String) : Option Stk :=
  match st.stocks.find? (fun s => s.symbol == sym) with
  | some s => some s
  | none => st.filtered.find? (fun s => s.symbol == sym)

/-- `addStock(symbol)`: no-op on unknown symbol; warning when the selection is
at capacity or the symbol is already selected; otherwise push. -/
def addStock (sym : String) (st : TB) : TB × List Toast :=
  match findStock st sym with
  | none => (st, [])
  | some stk =>
    if maxStocks ≤ st.selected.length then
      (st, [Toast.error ("Maximum " ++ toString maxStocks ++ " stocks allowed")])
    else if st.selected.any (fun s => s.symbol == sym) then
      (st, [Toast.error "Stock already selected"])
    else
      ({st with selected := st.selected ++ [stk]}, [Toast.success (stk.name ++ " added")])

/-- The `findIndex` + `splice(index, 1)` composite of `removeStock`: the first
element with the given symbol, and the list without it; `none` when the symbol
is absent (`findIndex` returned `-1`). -/
def spliceOut (sym : String) : List Stk → Option (Stk × List Stk)
  | [] => none
  | s :: rest =>
    if s.symbol = sym then some (s, rest)
    else (spliceOut sym rest).map (fun p => (p.1, s :: p.2))

/-- `removeStock(symbol)`: drop the first selected stock with that symbol and
clear a captain / vice-captain role held by it; no-op when absent. -/
def removeStock (sym : String) (st : TB) : TB × List Toast :=
  match spliceOut sym st.selected with
  | none => (st, [])
  | some (stk, rest) =>
    ({st with selected := rest,
              captain := if st.captain = some sym then none else st.captain,
              viceCaptain := if st.viceCaptain = some sym then none else st.viceCaptain},
     [Toast.info (stk.name ++ " removed")])

/-- `setCaptain(symbol)` (stockquest.js, lines 448–455): silently clears the
vice-captain when it equals the new captain, then assigns; no membership
check. -/
def setCaptain (sym : String) (st : TB) : TB × List Toast :=
  let st' := if st.viceCaptain = some sym then {st with viceCaptain := none} else st
  ({st' with captain := some sym}, [Toast.success "Captain selected! (2x points)"])

/-- `setViceCaptain(symbol)` (stockquest.js, lines 457–465): rejects the
current captain with an error toast and changes nothing; otherwise assigns;
no membership check. -/
def setViceCaptain (sym : String) (st : TB) : TB × List Toast :=
  if st.captain = some sym then
    (st, [Toast.error "Captain cannot be Vice Captain"])
  else
    ({st with viceCaptain := some sym}, [Toast.success "Vice Captain selected! (1.5x points)"])

/-- `selectedStocks.reduce((sum, s) => sum + (s.price * 10), 0)`. -/
def totalCost (st : TB) : ℚ :=
  st.selected.foldl (fun sum s => sum + s.price * 10) 0

/-- JS truthiness of the nullable role fields (`null` and `""` are falsy). -/
def truthyOpt : Option String → Bool
  | none => false
  | some s => !(s == "")

/-- The submit-button enable condition of `renderTeamList` (app.js, lines
381–384): `selectedStocks.length >= minStocks && captain && viceCaptain` —
note that affordability is not part of it. -/
def canCreate (st : TB) : Bool :=
  decide (minStocks ≤ st.selected.length) && truthyOpt st.captain && truthyOpt st.viceCaptain

/-- Outcome of a `createPortfolio()` invocation, in guard order. -/
inductive SubmitResult where
  | incompleteTeam
  | noCaptain
  | noViceCaptain
  | insufficientFunds
  | created
deriving DecidableEq, Repr

/-- `createPortfolio()` (stockquest.js lines 677–738 / app.js lines 754–834):
validate team size, captain, vice-captain and affordability in that order;
then persist a portfolio record with quantity-10 lines, debit the balance by
the total cost and clear the selection. -/
def createPortfolio (now : Nat) (st : TB) : TB × SubmitResult :=
  if st.selected.length < minStocks then (st, .incompleteTeam)
  else if truthyOpt st.captain = false then (st, .noCaptain)
  else if truthyOpt st.viceCaptain = false then (st, .noViceCaptain)
  else
    let cost := totalCost st
    if st.balance < cost then (st, .insufficientFunds)
    else
      let p : Portfolio :=
        { id := "P" ++ toString now
          stocks := st.selected.map (fun s => ⟨s.symbol, s.name, s.price, 10⟩)
          captain := st.captain
          viceCaptain := st.viceCaptain
          invested := cost
          createdAt := now }
      ({st with portfolios := st.portfolios ++ [p],
                balance := st.balance - cost,
                selected := [], captain := none, viceCaptain := none}, .created)

/-- States reachable from a freshly loaded page (empty selection, no roles)
under the team-builder operations exactly as implemented — in particular the
role setters accept arbitrary symbols, as in the source. -/
inductive ReachU : TB → Prop where
  | init (pool filt : List Stk) (bal : ℚ) :
      ReachU ⟨pool, filt, [], none, none, bal, []⟩
  | add (sym : String) {st : TB} : ReachU st → ReachU (addStock sym st).1
  | remove (sym : String) {st : TB} : ReachU st → ReachU (removeStock sym st).1
  | cap (sym : String) {st : TB} : ReachU st → ReachU (setCaptain sym st).1
  | vice (sym : String) {st : TB} : ReachU st → ReachU (setViceCaptain sym st).1
  | submit (now : Nat) {st : TB} : ReachU st → ReachU (createPortfolio now st).1

/-- States reachable when the role setters are only invoked with currently
selected symbols — the only invocations the UI generates, since the captain /
vice-captain buttons are rendered per selected team entry. -/
inductive ReachG : TB → Prop where
  | init (pool filt : List Stk) (bal : ℚ) :
      ReachG ⟨pool, filt, [], none, none, bal, []⟩
  | add (sym : String) {st : TB} : ReachG st → ReachG (addStock sym st).1
  | remove (sym : String) {st : TB} : ReachG st → ReachG (removeStock sym st).1
  | cap (sym : String) {st : TB} : ReachG st →
      sym ∈ st.selected.map Stk.symbol → ReachG (setCaptain sym st).1
  | vice (sym : String) {st : TB} : ReachG st →
      sym ∈ st.selected.map Stk.symbol → ReachG (setViceCaptain sym st).1
  | submit (now : Nat) {st : TB} : ReachG st → ReachG (createPortfolio now st).1

/-- Progress of one async `createPortfolio()` invocation (app.js): the four
atomic segments delimited by its three `await`s, plus terminal states. -/
inductive Phase where
  | ready
  | afterCreate
  | afterDebit
  | afterBoard
  | done
  | failed
deriving DecidableEq, Repr

/-- A selected stock as read by the concurrency model of `createPortfolio()`.
Money is integral in this module; the double-submission behaviour under
analysis is independent of the price scalar. -/
structure StkZ where
  symbol : String
  name : String
  price : ℤ
deriving DecidableEq, Repr

/-- One in-flight `createPortfolio()` invocation: its phase and the
`totalCost` captured in its local `const` before the first `await`. -/
structure SubTask where
  phase : Phase
  cost : ℤ
deriving DecidableEq, Repr

/-- A persisted portfolio document as written by `Database.createPortfolio`:
the stock lines, captain, vice-captain and invested amount. -/
structure PDoc where
  stocks : List StkZ
  captain : Option String
  viceCaptain : Option String
  invested : ℤ
deriving DecidableEq, Repr

/-- The UI-thread shared state seen by concurrent submissions (app.js):
selection, roles, balance and the cloud portfolio collection. -/
structure CloudState where
  selected : List StkZ
  captain : Option String
  viceCaptain : Option String
  balance : ℤ
  docs : List PDoc
deriving DecidableEq, Repr

/-- `selected.reduce((sum, s) => sum + (s.price * 10), 0)` on a raw list. -/
def totalCostZ (l : List StkZ) : ℤ :=
  l.foldl (fun sum s => sum + s.price * 10) 0

/-- One atomic segment of the async `createPortfolio()` (app.js, lines
754–834), for a logged-in user: `ready` runs the four guards against the
*shared* state, snapshots `totalCost`, builds `portfolioData` and issues
`Database.createPortfolio` (appending a document); `afterCreate` debits the
balance and issues `updateUser`; `afterDebit` issues the leaderboard upsert;
`afterBoard` clears the selection and roles. Nothing disables the submit
button while a submission is in flight. -/
def subStep (s : CloudState) (t : SubTask) : CloudState × SubTask :=
  match t.phase with
  | .ready =>
    if s.selected.length < minStocks then (s, {t with phase := .failed})
    else if truthyOpt s.captain = false then (s, {t with phase := .failed})
    else if truthyOpt s.viceCaptain = false then (s, {t with phase := .failed})
    else
      let cost := totalCostZ s.selected
      if cost > s.balance then (s, {t with phase := .failed})
      else
        ({s with docs := s.docs ++ [⟨s.selected, s.captain, s.viceCaptain, cost⟩]},
         {t with phase := .afterCreate, cost := cost})
  | .afterCreate => ({s with balance := s.balance - t.cost}, {t with phase := .afterDebit})
  | .afterDebit => (s, {t with phase := .afterBoard})
  | .afterBoard =>
      ({s with selected := [], captain := none, viceCaptain := none}, {t with phase := .done})
  | _ => (s, t)

/-- Run two submission invocations under an explicit UI-thread interleaving:
`true` steps the first invocation, `false` the second. -/
def runSched : List Bool → CloudState × SubTask × SubTask → CloudState × SubTask × SubTask
  | [], cfg => cfg
  | true :: rest, (s, t1, t2) =>
      let r := subStep s t1
      runSched rest (r.1, r.2, t2)
  | false :: rest, (s, t1, t2) =>
      let r := subStep s t2
      runSched rest (r.1, t1, r.2)

/-- A submittable shared state: a full valid team of five stocks, both roles
set, ample balance, no stored portfolio documents. -/
def readyCloud : CloudState :=
  { selected := [⟨"A", "A", 100⟩, ⟨"B", "B", 100⟩, ⟨"C", "C", 100⟩, ⟨"D", "D", 100⟩,
                 ⟨"E", "E", 100⟩]
    captain := some "A"
    viceCaptain := some "B"
    balance := 1000000
    docs := [] }

/-- A freshly dispatched invocation. -/
def freshTask : SubTask := { phase := .ready, cost := 0 }

/-- The double-click interleaving: the second click is processed while the
first invocation awaits its `Database.createPortfolio` write. -/
def doubleClickSched : List Bool :=
  [true, false, true, true, true, false, false, false]

/-- The sequential schedule: the second click is processed only after the
first invocation has fully completed. -/
def sequentialSched : List Bool :=
  [true, true, true, true, false, false, false, false]

/-- The Selection invariant of the specification: each role, if set, names a
selected symbol, and no symbol holds both roles at once. -/
def RolesOk (st : TB) : Prop :=
  (∀ c, st.captain = some c → c ∈ st.selected.map Stk.symbol) ∧
  (∀ v, st.viceCaptain = some v → v ∈ st.selected.map Stk.symbol) ∧
  ∀ s, ¬(st.captain = some s ∧ st.viceCaptain = some s)

/-- Apply a sequence of `addStock` operations (used to build witness states). -/
def addMany (syms : List String) (st : TB) : TB :=
  syms.foldl (fun s y => (addStock y s).1) st

def overBudgetShort : TB :=
  { stocks := [⟨"A", "A", 1000⟩, ⟨"B", "B", 1000⟩, ⟨"C", "C", 1000⟩, ⟨"D", "D", 1000⟩]
    filtered := []
    selected := [⟨"A", "A", 1000⟩, ⟨"B", "B", 1000⟩, ⟨"C", "C", 1000⟩, ⟨"D", "D", 1000⟩]
    captain := some "A"
    viceCaptain := some "B"
    balance := 100
    portfolios := [] }

def wC2 : TB :=
  { stocks := []
    filtered := []
    selected := [⟨"A", "A", 100⟩, ⟨"B", "B", 100⟩, ⟨"C", "C", 100⟩, ⟨"D", "D", 100⟩,
                 ⟨"E", "E", 100⟩]
    captain := some "A"
    viceCaptain := some "B"
    balance := 10
    portfolios := [] }

def emptyTB : TB := ⟨[], [], [], none, none, 0, []⟩

def wPool5 : List Stk :=
  [⟨"A", "A", 1⟩, ⟨"B", "B", 1⟩, ⟨"C", "C", 1⟩, ⟨"D", "D", 1⟩, ⟨"E", "E", 1⟩]

def wC4base : TB := addMany ["A", "B", "C", "D", "E"] ⟨wPool5, [], [], none, none, 0, []⟩

def wC4 : TB := (setViceCaptain "B" (setCaptain "A" wC4base).1).1

def wPool11 : List Stk :=
  [⟨"S1", "S1", 1⟩, ⟨"S2", "S2", 1⟩, ⟨"S3", "S3", 1⟩, ⟨"S4", "S4", 1⟩, ⟨"S5", "S5", 1⟩,
   ⟨"S6", "S6", 1⟩, ⟨"S7", "S7", 1⟩, ⟨"S8", "S8", 1⟩, ⟨"S9", "S9", 1⟩, ⟨"S10", "S10", 1⟩,
   ⟨"S11", "S11", 1⟩]

def wC5 : TB :=
  addMany ["S1", "S2", "S3", "S4", "S5", "S6", "S7", "S8", "S9", "S10", "S11"]
    ⟨wPool11, [], [], none, none, 0, []⟩

def c6State : TB := ⟨[⟨"A", "Alpha", 5⟩], [], [⟨"A", "Alpha", 5⟩], none, none, 0, []⟩

def wC6 : TB := ⟨[⟨"B", "Beta", 7⟩], [], [], none, none, 0, []⟩

def wC7 : TB :=
  ⟨[], [], [⟨"A", "A", 1⟩, ⟨"B", "B", 1⟩, ⟨"C", "C", 1⟩], some "A", some "B", 1000, []⟩

def rawFoo : JVal := JVal.obj [("name", JVal.str "Foo")]

def fooQuote : Quote :=
  { id := "FOO_0"
    name := JVal.str "Foo"
    symbol := JVal.str "FOO"
    price := some 0
    change := some 0
    volume := some 0
    high := some 0
    low := some 0
    marketCap := some 0
    pe := some 0
    high52 := some 0
    low52 := some 0
    sector := JVal.str ""
    raw := rawFoo }

def wC10 : TB := ⟨[], [], [⟨"A", "A", 1⟩, ⟨"B", "B", 1⟩], some "A", some "B", 0, []⟩

theorem find?_pred {α : Type} {p : α → Bool} {a : α} :
    ∀ {l : List α}, l.find? p = some a → p a = true := by
  intro l h
  induction l with
  | nil => simp [List.find?] at h
  | cons x xs ih =>
      rw [List.find?_cons] at h
      cases hp : p x with
      | true => rw [hp] at h; cases h; exact hp
      | false => rw [hp] at h; exact ih h

theorem findStock_symbol {st : TB} {sym : String} {stk : Stk}
    (h : findStock st sym = some stk) : stk.symbol = sym := by
  unfold findStock at h
  cases hf : st.stocks.find? (fun s => s.symbol == sym) with
  | some s =>
      rw [hf] at h
      cases h
      have hp := find?_pred hf
      exact beq_iff_eq.mp hp
  | none =>
      rw [hf] at h
      have h2 : st.filtered.find? (fun s => s.symbol == sym) = some stk := h
      have hp := find?_pred h2
      exact beq_iff_eq.mp hp

theorem spliceOut_eq_none {sym : String} {l : List Stk}
    (h : sym ∉ l.map Stk.symbol) : spliceOut sym l = none := by
  induction l with
  | nil => rfl
  | cons s rest ih =>
      simp only [List.map_cons, List.mem_cons] at h
      push_neg at h
      have hns : ¬ s.symbol = sym := fun hs => h.1 hs.symm
      simp only [spliceOut, if_neg hns, ih h.2, Option.map_none']

theorem spliceOut_append {sym : String} {l : List Stk} {stk : Stk}
    (hnm : sym ∉ l.map Stk.symbol) (he : stk.symbol = sym) :
    spliceOut sym (l ++ [stk]) = some (stk, l) := by
  induction l with
  | nil => simp [spliceOut, he]
  | cons s rest ih =>
      simp only [List.map_cons, List.mem_cons] at hnm
      push_neg at hnm
      have hns : ¬ s.symbol = sym := fun hs => hnm.1 hs.symm
      rw [List.cons_append]
      simp only [spliceOut, if_neg hns]
      rw [ih hnm.2]
      rfl

theorem spliceOut_isSome {sym : String} {l : List Stk}
    (h : sym ∈ l.map Stk.symbol) : (spliceOut sym l).isSome = true := by
  induction l with
  | nil => simp at h
  | cons s rest ih =>
      by_cases hs : s.symbol = sym
      · simp [spliceOut, hs]
      · simp only [List.map_cons, List.mem_cons] at h
        rcases h with h | h
        · exact absurd h.symm hs
        · simp only [spliceOut, if_neg hs]
          rcases Option.isSome_iff_exists.mp (ih h) with ⟨p, hp⟩
          simp [hp]

theorem spliceOut_mem {sym c : String} {l rest : List Stk} {stk : Stk}
    (h : spliceOut sym l = some (stk, rest)) (hc : c ≠ sym)
    (hm : c ∈ l.map Stk.symbol) : c ∈ rest.map Stk.symbol := by
  induction l generalizing rest with
  | nil => simp [spliceOut] at h
  | cons s tail ih =>
      by_cases hs : s.symbol = sym
      · simp only [spliceOut, if_pos hs] at h
        cases h
        simp only [List.map_cons, List.mem_cons] at hm
        rcases hm with hm | hm
        · exact absurd (hm ▸ hs) hc
        · exact hm
      · simp only [spliceOut, if_neg hs] at h
        cases hsp : spliceOut sym tail with
        | none => rw [hsp] at h; simp at h
        | some p =>
            rw [hsp] at h
            simp only [Option.map_some'] at h
            cases h
            simp only [List.map_cons, List.mem_cons] at hm ⊢
            rcases hm with hm | hm
            · exact Or.inl hm
            · exact Or.inr (ih (by rw [hsp]) hm)

theorem spliceOut_length {sym : String} {l rest : List Stk} {stk : Stk}
    (h : spliceOut sym l = some (stk, rest)) : rest.length + 1 = l.length := by
  induction l generalizing rest with
  | nil => simp [spliceOut] at h
  | cons s tail ih =>
      by_cases hs : s.symbol = sym
      · simp only [spliceOut, if_pos hs] at h
        cases h
        rfl
      · simp only [spliceOut, if_neg hs] at h
        cases hsp : spliceOut sym tail with
        | none => rw [hsp] at h; simp at h
        | some p =>
            rw [hsp] at h
            simp only [Option.map_some'] at h
            cases h
            simp only [List.length_cons]
            rw [← ih (by rw [hsp])]

theorem any_symbol_eq_false {sym : String} {l : List Stk}
    (h : sym ∉ l.map Stk.symbol) : l.any (fun s => s.symbol == sym) = false := by
  simp only [List.any_eq_false]
  intro s hs hbeq
  exact h (List.mem_map.mpr ⟨s, hs, beq_iff_eq.mp hbeq⟩)

theorem any_symbol_iff {sym : String} {l : List Stk} :
    l.any (fun s => s.symbol == sym) = true ↔ sym ∈ l.map Stk.symbol := by
  simp only [List.any_eq_true, List.mem_map, beq_iff_eq]

theorem addStock_eq (sym : String) (st : TB) :
    (addStock sym st).1 = st ∨
    ∃ stk, stk.symbol = sym ∧ st.selected.length < maxStocks ∧
      sym ∉ st.selected.map Stk.symbol ∧
      (addStock sym st).1 = {st with selected := st.selected ++ [stk]} := by
  cases hf : findStock st sym with
  | none => exact Or.inl (by simp only [addStock, hf])
  | some stk =>
      simp only [addStock, hf]
      by_cases hmax : maxStocks ≤ st.selected.length
      · left
        rw [if_pos hmax]
      · cases hany : st.selected.any (fun s => s.symbol == sym) with
        | true =>
            left
            rw [if_neg hmax]
            rfl
        | false =>
            refine Or.inr ⟨stk, findStock_symbol hf, by omega, ?_, ?_⟩
            · intro hm
              rw [any_symbol_iff.mpr hm] at hany
              cases hany
            · rw [if_neg hmax]
              rfl

theorem removeStock_eq (sym : String) (st : TB) :
    ((removeStock sym st).1 = st ∧ spliceOut sym st.selected = none) ∨
    ∃ stk rest, spliceOut sym st.selected = some (stk, rest) ∧
      (removeStock sym st).1 =
        {st with selected := rest,
                 captain := if st.captain = some sym then none else st.captain,
                 viceCaptain := if st.viceCaptain = some sym then none else st.viceCaptain} := by
  unfold removeStock
  cases hsp : spliceOut sym st.selected with
  | none => exact Or.inl ⟨rfl, rfl⟩
  | some p => exact Or.inr ⟨p.1, p.2, rfl, rfl⟩

theorem setCaptain_fields (sym : String) (st : TB) :
    (setCaptain sym st).1.selected = st.selected ∧
    (setCaptain sym st).1.captain = some sym ∧
    (setCaptain sym st).1.viceCaptain =
      (if st.viceCaptain = some sym then none else st.viceCaptain) := by
  unfold setCaptain
  by_cases h : st.viceCaptain = some sym <;> simp [h]

theorem setViceCaptain_eq (sym : String) (st : TB) :
    (st.captain = some sym ∧ (setViceCaptain sym st).1 = st) ∨
    (st.captain ≠ some sym ∧ (setViceCaptain sym st).1 = {st with viceCaptain := some sym}) := by
  unfold setViceCaptain
  by_cases h : st.captain = some sym
  · exact Or.inl ⟨h, by rw [if_pos h]⟩
  · exact Or.inr ⟨h, by rw [if_neg h]⟩

theorem createPortfolio_eq (now : Nat) (st : TB) :
    (createPortfolio now st).1 = st ∨
    ((createPortfolio now st).1.selected = [] ∧ (createPortfolio now st).1.captain = none ∧
      (createPortfolio now st).1.viceCaptain = none) := by
  unfold createPortfolio
  by_cases h1 : st.selected.length < minStocks
  · left; rw [if_pos h1]
  · rw [if_neg h1]
    by_cases h2 : truthyOpt st.captain = false
    · left; rw [if_pos h2]
    · rw [if_neg h2]
      by_cases h3 : truthyOpt st.viceCaptain = false
      · left; rw [if_pos h3]
      · rw [if_neg h3]
        by_cases h4 : st.balance < totalCost st
        · left; rw [if_pos h4]
        · rw [if_neg h4]
          exact Or.inr ⟨rfl, rfl, rfl⟩

theorem RolesOk_add (sym : String) {st : TB} (h : RolesOk st) : RolesOk (addStock sym st).1 := by
  obtain ⟨hc, hv, hd⟩ := h
  rcases addStock_eq sym st with he | ⟨stk, _, _, _, he⟩
  · rw [he]; exact ⟨hc, hv, hd⟩
  · rw [he]
    refine ⟨fun c hcc => ?_, fun v hvv => ?_, fun s hs => hd s hs⟩
    · show c ∈ (st.selected ++ [stk]).map Stk.symbol
      rw [List.map_append]
      exact List.mem_append_left _ (hc c hcc)
    · show v ∈ (st.selected ++ [stk]).map Stk.symbol
      rw [List.map_append]
      exact List.mem_append_left _ (hv v hvv)

theorem RolesOk_remove (sym : String) {st : TB} (h : RolesOk st) :
    RolesOk (removeStock sym st).1 := by
  obtain ⟨hc, hv, hd⟩ := h
  rcases removeStock_eq sym st with ⟨he, _⟩ | ⟨stk, rest, hsp, he⟩
  · rw [he]; exact ⟨hc, hv, hd⟩
  · rw [he]
    refine ⟨fun c hcc => ?_, fun v hvv => ?_, fun s hs => ?_⟩
    · show c ∈ rest.map Stk.symbol
      have hcc' : (if st.captain = some sym then none else st.captain) = some c := hcc
      by_cases hcs : st.captain = some sym
      · rw [if_pos hcs] at hcc'; cases hcc'
      · rw [if_neg hcs] at hcc'
        exact spliceOut_mem hsp (fun hh => hcs (hh ▸ hcc')) (hc c hcc')
    · show v ∈ rest.map Stk.symbol
      have hvv' : (if st.viceCaptain = some sym then none else st.viceCaptain) = some v := hvv
      by_cases hvs : st.viceCaptain = some sym
      · rw [if_pos hvs] at hvv'; cases hvv'
      · rw [if_neg hvs] at hvv'
        exact spliceOut_mem hsp (fun hh => hvs (hh ▸ hvv')) (hv v hvv')
    · obtain ⟨hs1, hs2⟩ := hs
      have hs1' : (if st.captain = some sym then none else st.captain) = some s := hs1
      have hs2' : (if st.viceCaptain = some sym then none else st.viceCaptain) = some s := hs2
      by_cases hcs : st.captain = some sym
      · rw [if_pos hcs] at hs1'; cases hs1'
      · rw [if_neg hcs] at hs1'
        by_cases hvs : st.viceCaptain = some sym
        · rw [if_pos hvs] at hs2'; cases hs2'
        · rw [if_neg hvs] at hs2'
          exact hd s ⟨hs1', hs2'⟩

theorem RolesOk_cap (sym : String) {st : TB} (hm : sym ∈ st.selected.map Stk.symbol)
    (h : RolesOk st) : RolesOk (setCaptain sym st).1 := by
  obtain ⟨hc, hv, hd⟩ := h
  obtain ⟨hsel, hcap, hvc⟩ := setCaptain_fields sym st
  refine ⟨fun c hcc => ?_, fun v hvv => ?_, fun s hs => ?_⟩
  · rw [hcap] at hcc
    cases hcc
    rw [hsel]
    exact hm
  · rw [hvc] at hvv
    by_cases hvs : st.viceCaptain = some sym
    · rw [if_pos hvs] at hvv; cases hvv
    · rw [if_neg hvs] at hvv
      rw [hsel]
      exact hv v hvv
  · obtain ⟨hs1, hs2⟩ := hs
    rw [hcap] at hs1
    have hss : sym = s := Option.some.inj hs1
    subst hss
    rw [hvc] at hs2
    by_cases hvs : st.viceCaptain = some sym
    · rw [if_pos hvs] at hs2; cases hs2
    · rw [if_neg hvs] at hs2
      exact hvs hs2

theorem RolesOk_vice (sym : String) {st : TB} (hm : sym ∈ st.selected.map Stk.symbol)
    (h : RolesOk st) : RolesOk (setViceCaptain sym st).1 := by
  obtain ⟨hc, hv, hd⟩ := h
  rcases setViceCaptain_eq sym st with ⟨_, he⟩ | ⟨hne, he⟩
  · rw [he]; exact ⟨hc, hv, hd⟩
  · rw [he]
    refine ⟨fun c hcc => ?_, fun v hvv => ?_, fun s hs => ?_⟩
    · exact hc c hcc
    · have hvv' : (some sym : Option String) = some v := hvv
      cases hvv'
      exact hm
    · obtain ⟨hs1, hs2⟩ := hs
      have hs2' : (some sym : Option String) = some s := hs2
      cases hs2'
      exact hne hs1

theorem RolesOk_submit (now : Nat) {st : TB} (h : RolesOk st) :
    RolesOk (createPortfolio now st).1 := by
  rcases createPortfolio_eq now st with he | ⟨hsel, hcap, hvc⟩
  · rw [he]; exact h
  · refine ⟨fun c hcc => ?_, fun v hvv => ?_, fun s hs => ?_⟩
    · rw [hcap] at hcc; cases hcc
    · rw [hvc] at hvv; cases hvv
    · rw [hcap] at hs; cases hs.1

theorem reachG_rolesOk {st : TB} (h : ReachG st) : RolesOk st := by
  induction h with
  | init pool filt bal =>
      exact ⟨(fun c hc => by cases hc), (fun v hv => by cases hv), (fun s hs => by cases hs.1)⟩
  | add sym _ ih => exact RolesOk_add sym ih
  | remove sym _ ih => exact RolesOk_remove sym ih
  | cap sym _ hm ih => exact RolesOk_cap sym hm ih
  | vice sym _ hm ih => exact RolesOk_vice sym hm ih
  | submit now _ ih => exact RolesOk_submit now ih

theorem removeStock_clears (sym : String) {st : TB} (h : RolesOk st) :
    (removeStock sym st).1.captain ≠ some sym ∧
    (removeStock sym st).1.viceCaptain ≠ some sym := by
  obtain ⟨hc, hv, _⟩ := h
  rcases removeStock_eq sym st with ⟨he, hnone⟩ | ⟨stk, rest, hsp, he⟩
  · rw [he]
    constructor
    · intro hcc
      have hs := spliceOut_isSome (hc sym hcc)
      rw [hnone] at hs
      cases hs
    · intro hvv
      have hs := spliceOut_isSome (hv sym hvv)
      rw [hnone] at hs
      cases hs
  · rw [he]
    constructor
    · show (if st.captain = some sym then none else st.captain) ≠ some sym
      by_cases hcs : st.captain = some sym
      · rw [if_pos hcs]
        exact fun hh => by cases hh
      · rw [if_neg hcs]
        exact hcs
    · show (if st.viceCaptain = some sym then none else st.viceCaptain) ≠ some sym
      by_cases hvs : st.viceCaptain = some sym
      · rw [if_pos hvs]
        exact fun hh => by cases hh
      · rw [if_neg hvs]
        exact hvs

theorem addStock_length {sym : String} {st : TB}
    (h : st.selected.length ≤ maxStocks) :
    (addStock sym st).1.selected.length ≤ maxStocks := by
  rcases addStock_eq sym st with he | ⟨stk, _, hlen, _, he⟩
  · rw [he]; exact h
  · rw [he]
    show (st.selected ++ [stk]).length ≤ maxStocks
    rw [List.length_append]
    simp only [List.length_singleton]
    omega

theorem removeStock_length {sym : String} {st : TB}
    (h : st.selected.length ≤ maxStocks) :
    (removeStock sym st).1.selected.length ≤ maxStocks := by
  rcases removeStock_eq sym st with ⟨he, _⟩ | ⟨stk, rest, hsp, he⟩
  · rw [he]; exact h
  · rw [he]
    show rest.length ≤ maxStocks
    have := spliceOut_length hsp
    omega

theorem reachU_length {st : TB} (h : ReachU st) : st.selected.length ≤ maxStocks := by
  induction h with
  | init pool filt bal => simp [maxStocks]
  | add sym _ ih => exact addStock_length ih
  | remove sym _ ih => exact removeStock_length ih
  | cap sym _ ih =>
      rw [(setCaptain_fields _ _).1]
      exact ih
  | vice sym hr ih =>
      rcases setViceCaptain_eq sym _ with ⟨_, he⟩ | ⟨_, he⟩ <;> rw [he] <;> exact ih
  | submit now _ ih =>
      rcases createPortfolio_eq now _ with he | ⟨hsel, _, _⟩
      · rw [he]; exact ih
      · rw [hsel]; simp [maxStocks]

theorem reachU_addMany (syms : List String) {st : TB} (h : ReachU st) :
    ReachU (addMany syms st) := by
  induction syms generalizing st with
  | nil => exact h
  | cons y ys ih => exact ih (ReachU.add y h)

theorem reachG_addMany (syms : List String) {st : TB} (h : ReachG st) :
    ReachG (addMany syms st) := by
  induction syms generalizing st with
  | nil => exact h
  | cons y ys ih => exact ih (ReachG.add y h)

/-- Claim C1 (code-bug evidence): both numeric resolvers of app.js parse the
magnitude string `"₹1.50 Cr"` to 1.5 instead of 15,000,000 — the detail
resolver's own `cr` branch (×10,000,000) is unreachable because its strip pass
removes every `C`/`c`/`R`/`r` first — while the equivalent nested-object
payload yields 15,000,000 and the `L` suffix (×100,000) does work in the
detail resolver. -/
theorem c1_cr_magnitude_dropped :
    parseNumDetail (JVal.str "₹1.50 Cr") = some (3 / 2) ∧
    parseNumApp (JVal.str "₹1.50 Cr") = some (3 / 2) ∧
    parseNumDetail (JVal.obj [("value", JVal.num 15000000)]) = some 15000000 ∧
    parseNumDetail (JVal.str "1.5 L") = some 150000 ∧
    parseNumApp (JVal.str "1.5 L") = some (3 / 2) := by
  refine ⟨?_, ?_, by decide, ?_, ?_⟩
  · have ht : jsTruthy (JVal.str "₹1.50 Cr") = true := by decide
    have h4 : containsSub ['c', 'r']
        (lowerList (trimJs (stripDetail ['₹', '1', '.', '5', '0', ' ', 'C', 'r']))) = false := by
      decide
    have h5 : containsSub ['l']
        (lowerList (trimJs (stripDetail ['₹', '1', '.', '5', '0', ' ', 'C', 'r']))) = false := by
      decide
    have hs : splitFloat (trimJs (stripDetail ['₹', '1', '.', '5', '0', ' ', 'C', 'r'])) =
        some ⟨false, 1, 50, 2, false, 0⟩ := by decide
    norm_num [parseNumDetail, parseNumDetailStr, ht, h4, h5, parseFloatChars, hs, ratOfParts,
      orZero]
  · have ht : jsTruthy (JVal.str "₹1.50 Cr") = true := by decide
    have hs : splitFloat (stripApp ['₹', '1', '.', '5', '0', ' ', 'C', 'r']) =
        some ⟨false, 1, 50, 2, false, 0⟩ := by decide
    norm_num [parseNumApp, ht, parseFloatChars, hs, ratOfParts, orZero]
  · have ht : jsTruthy (JVal.str "1.5 L") = true := by decide
    have h4 : containsSub ['c', 'r']
        (lowerList (trimJs (stripDetail ['1', '.', '5', ' ', 'L']))) = false := by decide
    have h5 : containsSub ['l']
        (lowerList (trimJs (stripDetail ['1', '.', '5', ' ', 'L']))) = true := by decide
    have hs : splitFloat (removeFirstCI ['l'] (trimJs (stripDetail ['1', '.', '5', ' ', 'L']))) =
        some ⟨false, 1, 5, 1, false, 0⟩ := by decide
    norm_num [parseNumDetail, parseNumDetailStr, ht, h4, h5, parseFloatChars, hs, ratOfParts]
  · have ht : jsTruthy (JVal.str "1.5 L") = true := by decide
    have hs : splitFloat (stripApp ['1', '.', '5', ' ', 'L']) =
        some ⟨false, 1, 5, 1, false, 0⟩ := by decide
    norm_num [parseNumApp, ht, parseFloatChars, hs, ratOfParts, orZero]

/-- Claim C2 counterexample: a four-stock selection whose cost (40,000)
exceeds the balance (100) is rejected as an incomplete team, not as
insufficient funds — the funds check is only reached after the team-size and
role guards. -/
theorem c2_counterexample :
    overBudgetShort.balance < totalCost overBudgetShort ∧
    (createPortfolio 0 overBudgetShort).2 = SubmitResult.incompleteTeam ∧
    (createPortfolio 0 overBudgetShort).2 ≠ SubmitResult.insufficientFunds := by
  refine ⟨by norm_num [totalCost, overBudgetShort], rfl, ?_⟩
  intro h
  exact SubmitResult.noConfusion h

/-- Claim C2 (amended): whenever the selection's total cost exceeds the
balance, `createPortfolio` leaves the whole state (balance, stored portfolios,
selection) unchanged and does not create a portfolio; it reports
`InsufficientFunds` when the earlier guards (team size, captain,
vice-captain) pass; and submission never drives a non-negative balance
negative. -/
theorem c2_insufficient_funds_blocks (st : TB) (now : Nat) :
    (st.balance < totalCost st →
      (createPortfolio now st).1 = st ∧
      (createPortfolio now st).2 ≠ SubmitResult.created ∧
      (minStocks ≤ st.selected.length → truthyOpt st.captain = true →
        truthyOpt st.viceCaptain = true →
        (createPortfolio now st).2 = SubmitResult.insufficientFunds)) ∧
    (0 ≤ st.balance → 0 ≤ (createPortfolio now st).1.balance) := by
  constructor
  · intro hover
    simp only [createPortfolio]
    by_cases h1 : st.selected.length < minStocks
    · rw [if_pos h1]
      exact ⟨rfl, (fun h => SubmitResult.noConfusion h), (fun h5 _ _ => absurd h1 (by omega))⟩
    · rw [if_neg h1]
      by_cases h2 : truthyOpt st.captain = false
      · rw [if_pos h2]
        refine ⟨rfl, (fun h => SubmitResult.noConfusion h), (fun _ hc _ => ?_)⟩
        rw [hc] at h2
        cases h2
      · rw [if_neg h2]
        by_cases h3 : truthyOpt st.viceCaptain = false
        · rw [if_pos h3]
          refine ⟨rfl, (fun h => SubmitResult.noConfusion h), (fun _ _ hv => ?_)⟩
          rw [hv] at h3
          cases h3
        · rw [if_neg h3, if_pos hover]
          exact ⟨rfl, (fun h => SubmitResult.noConfusion h), (fun _ _ _ => rfl)⟩
  · intro hpos
    simp only [createPortfolio]
    by_cases h1 : st.selected.length < minStocks
    · rw [if_pos h1]; exact hpos
    · rw [if_neg h1]
      by_cases h2 : truthyOpt st.captain = false
      · rw [if_pos h2]; exact hpos
      · rw [if_neg h2]
        by_cases h3 : truthyOpt st.viceCaptain = false
        · rw [if_pos h3]; exact hpos
        · rw [if_neg h3]
          by_cases h4 : st.balance < totalCost st
          · rw [if_pos h4]; exact hpos
          · rw [if_neg h4]
            show (0 : ℚ) ≤ st.balance - totalCost st
            have := not_lt.mp h4
            linarith

/-- Witness for C2: a complete, role-assigned team of five whose cost (5,000)
exceeds the balance (10) is rejected with `InsufficientFunds` and the state is
untouched. -/
theorem c2_witness :
    (createPortfolio 0 wC2).1 = wC2 ∧
    (createPortfolio 0 wC2).2 = SubmitResult.insufficientFunds := by
  have hover : wC2.balance < totalCost wC2 := by norm_num [wC2, totalCost]
  obtain ⟨h1, _, h3⟩ := (c2_insufficient_funds_blocks wC2 0).1 hover
  exact ⟨h1, h3 (by decide) (by decide) (by decide)⟩

/-- Claim C3 (code-bug evidence): when the second click of a double click is
processed while the first invocation awaits its `Database.createPortfolio`
write, both invocations pass every guard, two portfolio documents are created
and the balance is debited twice; under sequential execution the second
invocation fails the team-size guard and exactly one document is created. The
source never disables the submit button during an in-flight submission. -/
theorem c3_double_submission :
    (runSched doubleClickSched (readyCloud, freshTask, freshTask)).1.docs.length = 2 ∧
    (runSched doubleClickSched (readyCloud, freshTask, freshTask)).1.balance = 990000 ∧
    (runSched sequentialSched (readyCloud, freshTask, freshTask)).1.docs.length = 1 := by
  exact ⟨by decide, by decide, by decide⟩

/-- Claim C4 counterexample: the role setters perform no membership check, so
one `setCaptain "B"` call from the initial (empty) state reaches a state whose
captain names a symbol that is not among the selected stocks. -/
theorem c4_counterexample :
    ReachU (setCaptain "B" emptyTB).1 ∧
    (setCaptain "B" emptyTB).1.captain = some "B" ∧
    "B" ∉ (setCaptain "B" emptyTB).1.selected.map Stk.symbol := by
  exact ⟨ReachU.cap "B" (ReachU.init [] [] 0), by decide, by decide⟩

/-- Claim C4 (amended): in every state reachable when the role setters are
invoked only with currently selected symbols — the only calls the UI issues —
the captain and vice-captain never coincide, each role names a selected
symbol, and removing a stock clears any role held by its symbol. -/
theorem c4_roles_invariant (st : TB) (h : ReachG st) :
    RolesOk st ∧
    ∀ sym, (removeStock sym st).1.captain ≠ some sym ∧
           (removeStock sym st).1.viceCaptain ≠ some sym := by
  have hr := reachG_rolesOk h
  exact ⟨hr, fun sym => removeStock_clears sym hr⟩

/-- Witness for C4: in a concrete reachable five-stock state with captain
`"A"` and vice-captain `"B"`, removing `"A"` clears both roles it could
hold. -/
theorem c4_witness :
    (removeStock "A" wC4).1.captain ≠ some "A" ∧
    (removeStock "A" wC4).1.viceCaptain ≠ some "A" := by
  have hg : ReachG wC4 :=
    ReachG.vice "B"
      (ReachG.cap "A" (reachG_addMany ["A", "B", "C", "D", "E"] (ReachG.init wPool5 [] 0))
        (by decide))
      (by decide)
  exact (c4_roles_invariant wC4 hg).2 "A"

/-- Claim C5: every reachable selection holds at most 11 stocks, and in a
state already holding 11, `addStock` changes nothing — its only effect is at
most the capacity warning toast (no toast at all when the symbol is unknown to
the pool, the warning when it is known). -/
theorem c5_capacity (st : TB) (h : ReachU st) :
    st.selected.length ≤ 11 ∧
    (st.selected.length = 11 → ∀ sym,
      (addStock sym st).1 = st ∧
      ((addStock sym st).2 = [] ∨
        (addStock sym st).2 = [Toast.error "Maximum 11 stocks allowed"])) := by
  refine ⟨reachU_length h, fun hlen sym => ?_⟩
  cases hf : findStock st sym with
  | none =>
      constructor
      · simp only [addStock, hf]
      · left
        simp only [addStock, hf]
  | some stk =>
      have hmax : maxStocks ≤ st.selected.length := by
        rw [hlen]
        decide
      constructor
      · simp only [addStock, hf]
        rw [if_pos hmax]
      · right
        simp only [addStock, hf]
        rw [if_pos hmax]
        rfl

/-- Witness for C5: after adding all 11 pool stocks, the selection holds
exactly 11 entries and a further `addStock` is a warning-only no-op. -/
theorem c5_witness :
    wC5.selected.length ≤ 11 ∧
    (addStock "S1" wC5).1 = wC5 ∧
    ((addStock "S1" wC5).2 = [] ∨
      (addStock "S1" wC5).2 = [Toast.error "Maximum 11 stocks allowed"]) := by
  have h := c5_capacity wC5
    (reachU_addMany ["S1", "S2", "S3", "S4", "S5", "S6", "S7", "S8", "S9", "S10", "S11"]
      (ReachU.init wPool11 [] 0))
  have h11 : wC5.selected.length = 11 := by decide
  exact ⟨h.1, (h.2 h11 "S1").1, (h.2 h11 "S1").2⟩

theorem removeStock_of_spliceOut_none {sym : String} {st : TB}
    (hsp : spliceOut sym st.selected = none) : removeStock sym st = (st, []) := by
  unfold removeStock
  rw [hsp]

theorem removeStock_of_spliceOut {sym : String} {st : TB} {stk : Stk} {rest : List Stk}
    (hsp : spliceOut sym st.selected = some (stk, rest)) :
    (removeStock sym st).1 =
      {st with selected := rest,
               captain := if st.captain = some sym then none else st.captain,
               viceCaptain := if st.viceCaptain = some sym then none else st.viceCaptain} := by
  unfold removeStock
  rw [hsp]

/-- Claim C6 counterexample: when the symbol is already selected, `addStock`
is a warning-only no-op but `removeStock` then genuinely removes the stock, so
add-then-remove does not return the selection to its prior state. -/
theorem c6_counterexample :
    (removeStock "A" (addStock "A" c6State).1).1 ≠ c6State ∧
    (removeStock "A" (addStock "A" c6State).1).1.selected = [] := by
  exact ⟨by decide, by decide⟩

/-- Claim C6 (amended): for a symbol that is not already selected and holds no
role — in particular, under the invariant, any symbol absent from the
selection — `addStock` followed by `removeStock` of that symbol restores the
complete prior state: same selection in the same order, same captain and
vice-captain, same balance and portfolios. -/
theorem c6_add_remove_roundtrip (st : TB) (sym : String)
    (h1 : sym ∉ st.selected.map Stk.symbol)
    (h2 : st.captain ≠ some sym) (h3 : st.viceCaptain ≠ some sym) :
    (removeStock sym (addStock sym st).1).1 = st := by
  rcases addStock_eq sym st with he | ⟨stk, hsym, hlen, hnm, he⟩
  · rw [he, removeStock_of_spliceOut_none (spliceOut_eq_none h1)]
  · rw [he]
    have hsp : spliceOut sym ({st with selected := st.selected ++ [stk]}).selected =
        some (stk, st.selected) := spliceOut_append h1 hsym
    rw [removeStock_of_spliceOut hsp]
    dsimp only
    rw [if_neg h2, if_neg h3]

/-- Witness for C6: adding then removing `"B"` in a state where it is not
selected restores the state exactly. -/
theorem c6_witness :
    (removeStock "B" (addStock "B" wC6).1).1 = wC6 :=
  c6_add_remove_roundtrip wC6 "B" (by decide) (by decide) (by decide)

/-- Claim C7: with fewer than 5 selected stocks the submit button is disabled
(`canCreate` is false) regardless of role state and submission is rejected
with the incomplete-team error; and submission succeeds exactly when at least
5 stocks are selected, both roles are (truthily) set, and the total cost does
not exceed the balance. -/
theorem c7_canSubmit (st : TB) (now : Nat) :
    (st.selected.length < minStocks →
      canCreate st = false ∧ (createPortfolio now st).2 = SubmitResult.incompleteTeam) ∧
    ((createPortfolio now st).2 = SubmitResult.created ↔
      (minStocks ≤ st.selected.length ∧ truthyOpt st.captain = true ∧
       truthyOpt st.viceCaptain = true ∧ totalCost st ≤ st.balance)) := by
  constructor
  · intro hlt
    constructor
    · have hd : decide (minStocks ≤ st.selected.length) = false :=
        decide_eq_false (by omega)
      simp [canCreate, hd]
    · simp only [createPortfolio]
      rw [if_pos hlt]
  · constructor
    · intro hcr
      simp only [createPortfolio] at hcr
      by_cases h1 : st.selected.length < minStocks
      · rw [if_pos h1] at hcr
        exact SubmitResult.noConfusion hcr
      · rw [if_neg h1] at hcr
        by_cases h2 : truthyOpt st.captain = false
        · rw [if_pos h2] at hcr
          exact SubmitResult.noConfusion hcr
        · rw [if_neg h2] at hcr
          by_cases h3 : truthyOpt st.viceCaptain = false
          · rw [if_pos h3] at hcr
            exact SubmitResult.noConfusion hcr
          · rw [if_neg h3] at hcr
            by_cases h4 : st.balance < totalCost st
            · rw [if_pos h4] at hcr
              exact SubmitResult.noConfusion hcr
            · refine ⟨by omega, ?_, ?_, not_lt.mp h4⟩
              · cases hb : truthyOpt st.captain with
                | true => rfl
                | false => exact absurd hb h2
              · cases hb : truthyOpt st.viceCaptain with
                | true => rfl
                | false => exact absurd hb h3
    · rintro ⟨hl, hc, hv, hb⟩
      simp only [createPortfolio]
      rw [if_neg (by omega), if_neg (by rw [hc]; exact fun h => Bool.noConfusion h),
        if_neg (by rw [hv]; exact fun h => Bool.noConfusion h), if_neg (not_lt.mpr hb)]

/-- Witness for C7: a three-stock selection with both roles set still has the
submit button disabled and is rejected as an incomplete team. -/
theorem c7_witness :
    canCreate wC7 = false ∧ (createPortfolio 0 wC7).2 = SubmitResult.incompleteTeam :=
  (c7_canSubmit wC7 0).1 (by decide)

/-- Claim C8 counterexample: on a payload with no usable name field, the
stockquest.js list view keeps the `"Unknown"`-named record in its stock
collection (its `loadStocks` applies no filter), while the app.js list view
filters it out. -/
theorem c8_counterexample :
    (loadStocksQuest 0 [JVal.obj []]).map QuoteQ.name = [JVal.str "Unknown"] ∧
    loadStocksApp 0 [JVal.obj []] = [] := by
  exact ⟨rfl, rfl⟩

/-- Claim C8 (amended): the app.js list view's stock collection never contains
a record whose resolved name is `"Unknown"` — its `loadStocks` filters them
out after normalization (the duplicate stockquest.js list view does not). -/
theorem c8_app_filters_unknown (now : Nat) (data : List JVal) (q : Quote)
    (hq : q ∈ loadStocksApp now data) : jvalStrEq q.name "Unknown" = false := by
  unfold loadStocksApp at hq
  have h2 := (List.mem_filter.mp hq).2
  cases hb : jvalStrEq q.name "Unknown" with
  | false => rfl
  | true =>
      rw [hb] at h2
      exact Bool.noConfusion h2

/-- Witness for C8: the record normalized from a named payload survives the
app.js filter and its name is not `"Unknown"`. -/
theorem c8_witness : jvalStrEq fooQuote.name "Unknown" = false := by
  have hm : fooQuote ∈ loadStocksApp 0 [rawFoo] := by
    rw [show loadStocksApp 0 [rawFoo] = [fooQuote] from rfl]
    exact List.mem_singleton.mpr rfl
  exact c8_app_filters_unknown 0 [rawFoo] fooQuote hm

/-- Claim C9 counterexample: `utils.parseStock` is not a pure function of the
payload alone — its `id` field embeds `Date.now()`, so two invocations on the
identical payload at different instants produce records that differ (in every
field but `id` they agree; the `id`s are `"FOO_0"` and `"FOO_1"`). -/
theorem c9_counterexample :
    parseStock 0 rawFoo ≠ parseStock 1 rawFoo ∧
    (parseStock 0 rawFoo).map Quote.id = some "FOO_0" ∧
    (parseStock 1 rawFoo).map Quote.id = some "FOO_1" := by
  refine ⟨fun h => ?_, rfl, rfl⟩
  have h2 := congrArg (Option.map Quote.id) h
  rw [show (parseStock 0 rawFoo).map Quote.id = some "FOO_0" from rfl,
      show (parseStock 1 rawFoo).map Quote.id = some "FOO_1" from rfl] at h2
  exact absurd (Option.some.inj h2) (by decide)

/-- Claim C9 (amended): apart from the timestamp-bearing `id`, the normalizer
is a pure deterministic function of the payload — all other fields agree
across invocations at different instants — and on a payload with no usable
fields every numeric field defaults to 0 and every string-like field to
`"Unknown"`/derived-symbol/empty. -/
theorem c9_normalizer_core_deterministic :
    (∀ (raw : JVal) (t1 t2 : Nat),
      (parseStock t1 raw).map Quote.core = (parseStock t2 raw).map Quote.core) ∧
    (parseStock 0 (JVal.obj [])).map Quote.core = some
      ⟨JVal.str "Unknown", JVal.str "UNKNOW", some 0, some 0, some 0, some 0, some 0,
       some 0, some 0, some 0, some 0, JVal.str "", JVal.obj []⟩ := by
  constructor
  · intro raw t1 t2
    by_cases h : jsTruthy raw = false
    · simp [parseStock, h]
    · simp only [parseStock, if_neg h]
      rfl
  · rfl

/-- Claim C10: the two role setters of stockquest.js resolve conflicts
asymmetrically — `setCaptain` on the current vice-captain assigns the captain
and silently clears the vice-captain, while `setViceCaptain` on the current
captain reports an error and leaves the whole state unchanged. -/
theorem c10_role_conflict_asymmetry (st : TB) (s : String) :
    (st.viceCaptain = some s →
      (setCaptain s st).1.captain = some s ∧ (setCaptain s st).1.viceCaptain = none ∧
      (setCaptain s st).2 = [Toast.success "Captain selected! (2x points)"]) ∧
    (st.captain = some s →
      (setViceCaptain s st).1 = st ∧
      (setViceCaptain s st).2 = [Toast.error "Captain cannot be Vice Captain"]) := by
  constructor
  · intro hv
    have h1 : setCaptain s st =
        ({ {st with viceCaptain := none} with captain := some s},
         [Toast.success "Captain selected! (2x points)"]) := by
      unfold setCaptain
      rw [if_pos hv]
    rw [h1]
    exact ⟨rfl, rfl, rfl⟩
  · intro hc
    have h1 : setViceCaptain s st = (st, [Toast.error "Captain cannot be Vice Captain"]) := by
      unfold setViceCaptain
      rw [if_pos hc]
    rw [h1]
    exact ⟨rfl, rfl⟩

/-- Witness for C10: with captain `"A"` and vice-captain `"B"`, promoting
`"B"` to captain clears the vice-captain, while assigning `"A"` as
vice-captain is rejected and changes nothing. -/
theorem c10_witness :
    ((setCaptain "B" wC10).1.captain = some "B" ∧ (setCaptain "B" wC10).1.viceCaptain = none) ∧
    (setViceCaptain "A" wC10).1 = wC10 := by
  have h1 := (c10_role_conflict_asymmetry wC10 "B").1 rfl
  have h2 := (c10_role_conflict_asymmetry wC10 "A").2 rfl
  exact ⟨⟨h1.1, h1.2.1⟩, h2.1⟩
